import Mathlib

/-!
# druid: console for the crow module, device control protocol

A shallow embedding of `druid.go`.  The serial port and the shell console are
external to the program; they are modelled by a `World` that holds

* the answers the port will give to the successive `Write` and `Read` calls
  (`wr`, `rd`), with the number of calls made so far (`nw`, `nr`), and
* the `trace` of everything the program has done so far: port writes, port
  reads, log lines, and what it printed or reported on the console.

Go strings and byte slices are lists of bytes; a Go `error` is an
`Option Err`, `none` being `nil`.  The `for` loop of `printResponse` need not
terminate, so it is run for a bounded number of iterations: the result is the
world reached together with a flag telling whether the loop has exited.
-/

namespace Druid

/-! ## Data model -/

abbrev Byte := UInt8

/-- Go `string` and `[]byte` values: a sequence of bytes. -/
abbrev GoString := List Byte

/-- The bytes of a Go string literal made of ASCII characters only. -/
def ascii (s : String) : GoString := s.data.map (fun c => c.toNat.toUInt8)

/-- Go `error` values, as far as the program tells them apart: `io.EOF` and
any other error (identified by a code). -/
inductive Err where
  | EOF
  | other (code : Nat)
  deriving DecidableEq, Repr

/-- Fixed console messages of the `script` command. -/
inductive ConsoleMsg where
  | enterScript
  | doneReading
  deriving DecidableEq, Repr

/-- What the program does to the outside, in order. -/
inductive Event where
  | write (data : GoString)
  | log (n : Nat) (err : Option Err) (input : GoString)
  | read (n : Nat) (err : Option Err)
  | printf (data : GoString)
  | err (e : Err)
  | printArgs (args : List GoString)
  | println (msg : ConsoleMsg)
  | printLine (n : Nat) (line : GoString)
  deriving DecidableEq, Repr

/-- Answer of the port to one `Write` call: `(n, err)`. -/
structure WriteResult where
  n : Nat
  err : Option Err
  deriving DecidableEq, Repr

/-- Answer of the port to one `Read` call: the bytes it has to deliver and the
error it returns. -/
structure ReadResult where
  data : GoString
  err : Option Err
  deriving DecidableEq, Repr

/-- The open serial port of `crow` and the shell console. -/
structure World where
  wr : Nat → WriteResult
  rd : Nat → ReadResult
  nw : Nat
  nr : Nat
  trace : List Event

/-- Append one event to the trace. -/
def World.emit (w : World) (e : Event) : World :=
  { w with trace := w.trace ++ [e] }

/-- `c.Err(err)` guarded by `err != nil`. -/
def World.report (w : World) : Option Err → World
  | some e => w.emit (Event.err e)
  | none => w

/-! ## Observations on a trace -/

/-- The payloads of the port writes, in order. -/
def writes : List Event → List GoString
  | [] => []
  | Event.write d :: t => d :: writes t
  | _ :: t => writes t

/-- The number of port reads. -/
def readCount : List Event → Nat
  | [] => 0
  | Event.read _ _ :: t => readCount t + 1
  | _ :: t => readCount t

/-- The bytes forwarded to the display by `c.Printf("%s", buf[:n])`. -/
def displayed : List Event → GoString
  | [] => []
  | Event.printf d :: t => d ++ displayed t
  | _ :: t => displayed t

/-- The errors reported to the operator by `c.Err`. -/
def reported : List Event → List Err
  | [] => []
  | Event.err e :: t => e :: reported t
  | _ :: t => reported t

/-! ## The crow connection (druid.go, lines 174-210) -/

/-- `crow.Write`: `c.Port.Write(data)`. -/
def Write (data : GoString) (w : World) : (Nat × Option Err) × World :=
  let r := w.wr w.nw
  ((r.n, r.err), { w with nw := w.nw + 1, trace := w.trace ++ [Event.write data] })

/-- `crow.Send`: write the bytes of `input`, log the outcome, return the
write error. -/
def Send (input : GoString) (w : World) : Option Err × World :=
  let r := Write input w
  (r.1.2, r.2.emit (Event.log r.1.1 r.1.2 input))

/-- `crow.Reset`. -/
def Reset (w : World) : Option Err × World := Send (ascii "^^r\n") w

/-- `crow.ClearScript`. -/
def ClearScript (w : World) : Option Err × World := Send (ascii "^^c\n") w

/-- `crow.StartScript`. -/
def StartScript (w : World) : Option Err × World := Send (ascii "^^s\n") w

/-- `crow.EndScript`. -/
def EndScript (w : World) : Option Err × World := Send (ascii "^^e\n") w

/-- `c.Port.Read(buf)`: the port copies as many bytes as fit into the front of
`buf` and returns their number and its error. -/
def Read (buf : List Byte) (w : World) : (Nat × Option Err) × List Byte × World :=
  let r := w.rd w.nr
  let n := min r.data.length buf.length
  ((n, r.err), r.data.take n ++ buf.drop n,
    { w with nr := w.nr + 1, trace := w.trace ++ [Event.read n r.err] })

/-! ## printResponse (druid.go, lines 212-228) -/

/-- The `for` loop of `printResponse`, run for at most `fuel` iterations.  The
flag is `true` when the loop has exited by one of its `break`s. -/
def drainLoop : Nat → List Byte → World → World × Bool
  | 0, _, w => (w, false)
  | fuel + 1, buf, w =>
    let r := Read buf w
    let n := r.1.1
    let err := r.1.2
    let buf1 := r.2.1
    let w1 := r.2.2
    if err = some Err.EOF then (w1, true)
    else
      let w2 := w1.report err
      if n = 0 then (w2, true)
      else drainLoop fuel buf1 (w2.emit (Event.printf (buf1.take n)))

/-- `printResponse`: the loop over a fresh buffer of 128 bytes. -/
def printResponse (fuel : Nat) (w : World) : World × Bool :=
  drainLoop fuel (List.replicate 128 0) w

/-- `crow.PrintScript`: the returned error, the world, and whether the call
has returned. -/
def PrintScript (fuel : Nat) (w : World) : Option Err × World × Bool :=
  let r := Send (ascii "^^p\n") w
  match r.1 with
  | some e => (some e, r.2, true)
  | none => (none, printResponse fuel r.2)

/-! ## The shell commands (druid.go, lines 46-134) -/

/-- Handler of `reset`: the result of `crow.Reset()` is dropped. -/
def resetCmd (w : World) : World := (Reset w).2

/-- Handler of `dump`: the result of `crow.PrintScript(c)` is dropped. -/
def dumpCmd (fuel : Nat) (w : World) : World × Bool := (PrintScript fuel w).2

/-- Handler of `clear`. -/
def clearCmd (w : World) : World :=
  let r := ClearScript w
  r.2.report r.1

/-- Go `strings.Split(s, sep)` for a separator of one byte: the pieces of `s`
between the occurrences of `sep`; always at least one piece. -/
def Split (s : GoString) (sep : Byte) : List GoString := s.splitOn sep

/-- Go `strings.Join(elems, sep)`. -/
def Join : List GoString → GoString → GoString
  | [], _ => []
  | [a], _ => a
  | a :: b :: rest, sep => a ++ sep ++ Join (b :: rest) sep

/-- Interactive branch of `script` (lines 96-98), from the text returned by
`c.ReadMultiLines(";")`: split on newline and drop the last entry.  `none` is
the slice-bounds fault of `lines[:len(lines)-1]` on an empty slice. -/
def interactiveLines (input : GoString) : Option (List GoString) :=
  let lines := Split input 10
  if lines.length = 0 then none else some (lines.take (lines.length - 1))

/-- The debug loop `for n, line := range lines { c.Printf(...) }`, counting
from `n`. -/
def printLines : Nat → List GoString → World → World
  | _, [], w => w
  | n, line :: rest, w => printLines (n + 1) rest (w.emit (Event.printLine n line))

/-- The loop `for _, line := range lines { crow.Send(line + "\n") }`; the
result of each `Send` is dropped. -/
def sendLines : List GoString → World → World
  | [], w => w
  | line :: rest, w => sendLines rest (Send (line ++ ascii "\n") w).2

/-- The `script` handler up to the call of `printResponse` (lines 100-117),
once the lines are read. -/
def uploadWrites (lines : List GoString) (w : World) : World :=
  let w1 := printLines 0 lines (w.emit (Event.println ConsoleMsg.doneReading))
  let r := StartScript w1
  let w2 := r.2.report r.1
  let w3 := sendLines lines w2
  (EndScript w3).2

/-- The `script` handler once the lines are read (lines 100-118). -/
def upload (fuel : Nat) (lines : List GoString) (w : World) : World × Bool :=
  printResponse fuel (uploadWrites lines w)

/-- Outcome of the `script` handler. -/
inductive ScriptRun where
  | ran (w : World) (returned : Bool)
  | fault

/-- Handler of `script` (lines 77-120).  `openFile` stands for `os.Open`
followed by the `bufio.Scanner` loop: the error of `os.Open`, or the lines
scanned; `multi` is the text returned by `c.ReadMultiLines(";")`. -/
def scriptCmd (fuel : Nat) (args : List GoString)
    (openFile : GoString → Except Err (List GoString)) (multi : GoString)
    (w : World) : ScriptRun :=
  let w0 := w.emit (Event.printArgs args)
  match args with
  | path :: _ =>
    match openFile path with
    | Except.error e => ScriptRun.ran (w0.emit (Event.err e)) true
    | Except.ok lines =>
      let r := upload fuel lines w0
      ScriptRun.ran r.1 r.2
  | [] =>
    match interactiveLines multi with
    | none => ScriptRun.fault
    | some lines =>
      let r := upload fuel lines (w0.emit (Event.println ConsoleMsg.enterScript))
      ScriptRun.ran r.1 r.2

/-- Handler for input that is no registered command (`addGeneric`). -/
def notFound (fuel : Nat) (rawArgs : List GoString) (w : World) : World × Bool :=
  let line := Join rawArgs (ascii " ") ++ ascii "\n"
  let r := Send line w
  printResponse fuel (r.2.report r.1)

/-! ## Opening the connection (druid.go, lines 140-161) -/

/-- `serial.Config` as filled in by `Open`; the timeout in milliseconds. -/
structure Config where
  Name : GoString
  Baud : Nat
  ReadTimeout : Nat
  deriving DecidableEq, Repr

/-- The `crow` struct; the port is identified by a number. -/
structure Crow where
  Config : Option Config
  Port : Option Nat
  deriving DecidableEq, Repr

/-- Result of `filepath.Glob`: the slice of matches (`none` is the `nil`
slice, which is what `Glob` returns when nothing matches) and the error. -/
structure GlobResult where
  matched : Option (List GoString)
  err : Option Err
  deriving DecidableEq, Repr

/-- A Go run-time fault. -/
inductive Fault where
  | nilDereference
  | indexOutOfRange
  deriving DecidableEq, Repr

/-- `crow.DefaultDevice`: `nil` (here `none`) on a glob error or a `nil`
slice, else a pointer to the first match. -/
def DefaultDevice (glob : GlobResult) : Except Fault (Option GoString) :=
  if glob.err ≠ none ∨ glob.matched = none then Except.ok none
  else
    match glob.matched with
    | some (m :: _) => Except.ok (some m)
    | _ => Except.error Fault.indexOutOfRange

/-- `crow.Open`.  `devicePath` is the pointer argument (`none` is `nil`),
`glob` the answer of `filepath.Glob("/dev/tty.usbmodem*")`, `openPort` stands
for `serial.OpenPort`.  The result is the updated `crow` and the returned
error, or the fault that stops the program. -/
def Open (c : Crow) (devicePath : Option GoString) (glob : GlobResult)
    (openPort : Config → Option Nat × Option Err) : Except Fault (Crow × Option Err) :=
  let dp : Except Fault (Option GoString) :=
    if devicePath = none ∨ devicePath = some [] then DefaultDevice glob
    else Except.ok devicePath
  match dp with
  | Except.error f => Except.error f
  | Except.ok none => Except.error Fault.nilDereference
  | Except.ok (some name) =>
    let cfg : Config := { Name := name, Baud := 115200, ReadTimeout := 5 }
    let r := openPort cfg
    Except.ok ({ c with Config := some cfg, Port := r.1 }, r.2)

/-- `crow.DeviceName`, a fault when `Config` is `nil`. -/
def DeviceName (c : Crow) : Except Fault GoString :=
  match c.Config with
  | some cfg => Except.ok cfg.Name
  | none => Except.error Fault.nilDereference

/-! ## Trace of a run of bursts -/

/-- The events of a run of non-empty error-free reads into a buffer of 128
bytes: each read is followed by the display of what it put in the buffer. -/
def burstEvents (bursts : List GoString) : List Event :=
  (bursts.map (fun b => [Event.read (min b.length 128) none, Event.printf (b.take 128)])).flatten

/-! ## Sample worlds -/

/-- A port whose first read delivers `AB`, every later read nothing; all
writes succeed. -/
def wBurst : World :=
  { wr := fun _ => ⟨0, none⟩
    rd := fun i => if i = 0 then ⟨[65, 66], none⟩ else ⟨[], none⟩
    nw := 0, nr := 0, trace := [] }

/-- A port at end of stream: every read returns `AB` together with `io.EOF`. -/
def wEOF : World :=
  { wr := fun _ => ⟨0, none⟩
    rd := fun _ => ⟨[65, 66], some Err.EOF⟩
    nw := 0, nr := 0, trace := [] }

/-- A port whose every read fails with an error that is not `io.EOF` and
delivers no byte. -/
def wReadErr : World :=
  { wr := fun _ => ⟨0, none⟩
    rd := fun _ => ⟨[], some (Err.other 5)⟩
    nw := 0, nr := 0, trace := [] }

/-- A port whose first read fails with an error that is not `io.EOF` while
delivering `AB`; every later read is empty. -/
def wReadErrData : World :=
  { wr := fun _ => ⟨0, none⟩
    rd := fun i => if i = 0 then ⟨[65, 66], some (Err.other 5)⟩ else ⟨[], none⟩
    nw := 0, nr := 0, trace := [] }

/-- A port on which the first write fails and every later write succeeds. -/
def wBeginFails : World :=
  { wr := fun i => if i = 0 then ⟨0, some (Err.other 5)⟩ else ⟨6, none⟩
    rd := fun _ => ⟨[], none⟩
    nw := 0, nr := 0, trace := [] }

/-- A port on which every write fails. -/
def wWriteFails : World :=
  { wr := fun _ => ⟨0, some (Err.other 5)⟩
    rd := fun _ => ⟨[], none⟩
    nw := 0, nr := 0, trace := [] }

/-! # Theorems -/

set_option maxRecDepth 16384

/-! ## Observations distribute over the concatenation of traces -/

theorem writes_append (s t : List Event) : writes (s ++ t) = writes s ++ writes t := by
  induction s with
  | nil => rfl
  | cons e s ih => cases e <;> simp [writes, ih]

theorem readCount_append (s t : List Event) :
    readCount (s ++ t) = readCount s + readCount t := by
  induction s with
  | nil => simp [readCount]
  | cons e s ih =>
    cases e <;> simp [readCount, ih]
    omega

theorem displayed_append (s t : List Event) :
    displayed (s ++ t) = displayed s ++ displayed t := by
  induction s with
  | nil => rfl
  | cons e s ih => cases e <;> simp [displayed, ih]

theorem reported_append (s t : List Event) :
    reported (s ++ t) = reported s ++ reported t := by
  induction s with
  | nil => rfl
  | cons e s ih => cases e <;> simp [reported, ih]

/-! ## Send -/

theorem Send_fst (d : GoString) (w : World) : (Send d w).1 = (w.wr w.nw).err := rfl

theorem Send_snd (d : GoString) (w : World) :
    (Send d w).2 =
      { w with
        nw := w.nw + 1
        trace := w.trace ++ [Event.write d, Event.log (w.wr w.nw).n (w.wr w.nw).err d] } := by
  simp [Send, Write, World.emit]

theorem ascii_reset : ascii "^^r\n" = [94, 94, 114, 10] := by decide
theorem ascii_print : ascii "^^p\n" = [94, 94, 112, 10] := by decide
theorem ascii_clear : ascii "^^c\n" = [94, 94, 99, 10] := by decide
theorem ascii_start : ascii "^^s\n" = [94, 94, 115, 10] := by decide
theorem ascii_end : ascii "^^e\n" = [94, 94, 101, 10] := by decide
theorem ascii_newline : ascii "\n" = [10] := by decide
theorem ascii_space : ascii " " = [32] := by decide

/-! ## The drain loop touches only the read side -/

theorem Read_buf_length (buf : List Byte) (w : World) :
    (Read buf w).2.1.length = buf.length := by
  simp only [Read, List.length_append, List.length_take, List.length_drop]
  omega

theorem Read_trace (buf : List Byte) (w : World) :
    (Read buf w).2.2.trace = w.trace ++ [Event.read (Read buf w).1.1 (Read buf w).1.2] := rfl

theorem report_trace (w : World) (err : Option Err) :
    (w.report err).trace = w.trace ++ (match err with | some e => [Event.err e] | none => []) := by
  cases err <;> simp [World.report, World.emit]

theorem report_wr (w : World) (err : Option Err) : (w.report err).wr = w.wr := by
  cases err <;> rfl

theorem report_rd (w : World) (err : Option Err) : (w.report err).rd = w.rd := by
  cases err <;> rfl

theorem report_nw (w : World) (err : Option Err) : (w.report err).nw = w.nw := by
  cases err <;> rfl

theorem report_nr (w : World) (err : Option Err) : (w.report err).nr = w.nr := by
  cases err <;> rfl

theorem writes_errEvents (err : Option Err) :
    writes (match err with | some e => [Event.err e] | none => []) = [] := by
  cases err <;> rfl

theorem drainLoop_frame (fuel : Nat) : ∀ (buf : List Byte) (w : World),
    (drainLoop fuel buf w).1.wr = w.wr ∧ (drainLoop fuel buf w).1.rd = w.rd ∧
    (drainLoop fuel buf w).1.nw = w.nw ∧
    ∃ rest, (drainLoop fuel buf w).1.trace = w.trace ++ rest ∧ writes rest = [] := by
  induction fuel with
  | zero => intro buf w; exact ⟨rfl, rfl, rfl, [], by simp [drainLoop], rfl⟩
  | succ fuel ih =>
    intro buf w
    rw [drainLoop]
    by_cases h1 : (Read buf w).1.2 = some Err.EOF
    · simp only [h1, if_true]
      exact ⟨rfl, rfl, rfl, [_], rfl, rfl⟩
    · simp only [h1, if_false]
      by_cases h2 : (Read buf w).1.1 = 0
      · simp only [h2, if_true]
        refine ⟨?_, ?_, ?_, [Event.read (Read buf w).1.1 (Read buf w).1.2] ++
          (match (Read buf w).1.2 with | some e => [Event.err e] | none => []), ?_, ?_⟩
        · rw [report_wr]; rfl
        · rw [report_rd]; rfl
        · rw [report_nw]; rfl
        · rw [report_trace, ← List.append_assoc]; rfl
        · simp [writes_append, writes, writes_errEvents]
      · simp only [h2, if_false]
        obtain ⟨a, b, c, rest, hr, hw⟩ := ih (Read buf w).2.1
          (((Read buf w).2.2.report (Read buf w).1.2).emit
            (Event.printf ((Read buf w).2.1.take (Read buf w).1.1)))
        refine ⟨?_, ?_, ?_, [Event.read (Read buf w).1.1 (Read buf w).1.2] ++
          ((match (Read buf w).1.2 with | some e => [Event.err e] | none => []) ++
            ([Event.printf ((Read buf w).2.1.take (Read buf w).1.1)] ++ rest)), ?_, ?_⟩
        · rw [a]; show ((Read buf w).2.2.report _).wr = _; rw [report_wr]; rfl
        · rw [b]; show ((Read buf w).2.2.report _).rd = _; rw [report_rd]; rfl
        · rw [c]; show ((Read buf w).2.2.report _).nw = _; rw [report_nw]; rfl
        · rw [hr]
          show (((Read buf w).2.2.report _).trace ++ [_]) ++ rest = _
          rw [report_trace]
          rw [Read_trace]
          simp only [List.append_assoc]
        · simp [writes_append, writes, writes_errEvents, hw]

theorem drainLoop_writes (fuel : Nat) (buf : List Byte) (w : World) :
    writes (drainLoop fuel buf w).1.trace = writes w.trace := by
  obtain ⟨_, _, _, rest, hr, hw⟩ := drainLoop_frame fuel buf w
  rw [hr, writes_append, hw, List.append_nil]

/-! ## The loops of the `script` handler -/

theorem printLines_spec (lines : List GoString) : ∀ (n : Nat) (w : World),
    (printLines n lines w).wr = w.wr ∧ (printLines n lines w).rd = w.rd ∧
    (printLines n lines w).nw = w.nw ∧ (printLines n lines w).nr = w.nr ∧
    ∃ evs, (printLines n lines w).trace = w.trace ++ evs ∧
      writes evs = [] ∧ readCount evs = 0 ∧ reported evs = [] := by
  induction lines with
  | nil => intro n w; exact ⟨rfl, rfl, rfl, rfl, [], by simp [printLines], rfl, rfl, rfl⟩
  | cons line rest ih =>
    intro n w
    obtain ⟨a, b, c, d, evs, ht, h1, h2, h3⟩ := ih (n + 1) (w.emit (Event.printLine n line))
    refine ⟨?_, ?_, ?_, ?_, Event.printLine n line :: evs, ?_, ?_, ?_, ?_⟩
    · rw [printLines, a]; rfl
    · rw [printLines, b]; rfl
    · rw [printLines, c]; rfl
    · rw [printLines, d]; rfl
    · rw [printLines, ht]; simp [World.emit]
    · simpa [writes] using h1
    · simpa [readCount] using h2
    · simpa [reported] using h3

theorem sendLines_spec (lines : List GoString) : ∀ (w : World),
    (sendLines lines w).wr = w.wr ∧ (sendLines lines w).rd = w.rd ∧
    (sendLines lines w).nw = w.nw + lines.length ∧ (sendLines lines w).nr = w.nr ∧
    ∃ evs, (sendLines lines w).trace = w.trace ++ evs ∧
      writes evs = lines.map (fun l => l ++ [10]) ∧ readCount evs = 0 ∧ reported evs = [] := by
  induction lines with
  | nil => intro w; exact ⟨rfl, rfl, rfl, rfl, [], by simp [sendLines], rfl, rfl, rfl⟩
  | cons line rest ih =>
    intro w
    obtain ⟨a, b, c, d, evs, ht, h1, h2, h3⟩ := ih (Send (line ++ ascii "\n") w).2
    refine ⟨?_, ?_, ?_, ?_,
      Event.write (line ++ [10]) ::
        Event.log (w.wr w.nw).n (w.wr w.nw).err (line ++ [10]) :: evs, ?_, ?_, ?_, ?_⟩
    · rw [sendLines, a]; rfl
    · rw [sendLines, b]; rfl
    · rw [sendLines, c, Send_snd]; simp only [List.length_cons]; omega
    · rw [sendLines, d]; rfl
    · rw [sendLines, ht, Send_snd, ascii_newline]; simp
    · simpa [writes] using h1
    · simpa [readCount] using h2
    · simpa [reported] using h3

theorem Send_wr (d : GoString) (w : World) : (Send d w).2.wr = w.wr := rfl
theorem Send_rd (d : GoString) (w : World) : (Send d w).2.rd = w.rd := rfl
theorem Send_nw (d : GoString) (w : World) : (Send d w).2.nw = w.nw + 1 := rfl
theorem Send_nr (d : GoString) (w : World) : (Send d w).2.nr = w.nr := rfl
theorem Send_trace (d : GoString) (w : World) :
    (Send d w).2.trace =
      w.trace ++ [Event.write d, Event.log (w.wr w.nw).n (w.wr w.nw).err d] := by
  rw [Send_snd]

/-- The `script` handler before its drain: some console output, the Begin
write with its log line and its error report if it failed, then the line
writes and the End write, none of them reported. -/
theorem uploadWrites_spec (lines : List GoString) (w : World) :
    (uploadWrites lines w).wr = w.wr ∧ (uploadWrites lines w).rd = w.rd ∧
    (uploadWrites lines w).nw = w.nw + lines.length + 2 ∧
    (uploadWrites lines w).nr = w.nr ∧
    ∃ pre post, (uploadWrites lines w).trace =
        w.trace ++ pre ++
          (Event.write [94, 94, 115, 10] ::
            Event.log (w.wr w.nw).n (w.wr w.nw).err [94, 94, 115, 10] ::
            (match (w.wr w.nw).err with | some e => [Event.err e] | none => [])) ++ post ∧
      writes pre = [] ∧ readCount pre = 0 ∧ reported pre = [] ∧
      writes post = lines.map (fun l => l ++ [10]) ++ [[94, 94, 101, 10]] ∧
      readCount post = 0 ∧ reported post = [] := by
  have hdef : uploadWrites lines w =
      (Send [94, 94, 101, 10] (sendLines lines
        ((Send [94, 94, 115, 10]
            (printLines 0 lines (w.emit (Event.println ConsoleMsg.doneReading)))).2.report
          (Send [94, 94, 115, 10]
            (printLines 0 lines (w.emit (Event.println ConsoleMsg.doneReading)))).1))).2 := by
    simp only [uploadWrites, StartScript, EndScript, ascii_start, ascii_end]
  obtain ⟨a1, b1, c1, d1, pre, t1, p1, p2, p3⟩ :=
    printLines_spec lines 0 (w.emit (Event.println ConsoleMsg.doneReading))
  generalize printLines 0 lines (w.emit (Event.println ConsoleMsg.doneReading)) = w1
    at hdef a1 b1 c1 d1 t1
  replace a1 : w1.wr = w.wr := a1
  replace b1 : w1.rd = w.rd := b1
  replace c1 : w1.nw = w.nw := c1
  replace d1 : w1.nr = w.nr := d1
  replace t1 : w1.trace = w.trace ++ Event.println ConsoleMsg.doneReading :: pre := by
    rw [t1]; simp [World.emit]
  obtain ⟨a2, b2, c2, d2, post, t2, q1, q2, q3⟩ := sendLines_spec lines
    ((Send [94, 94, 115, 10] w1).2.report (Send [94, 94, 115, 10] w1).1)
  generalize sendLines lines
    ((Send [94, 94, 115, 10] w1).2.report (Send [94, 94, 115, 10] w1).1) = w3
    at hdef a2 b2 c2 d2 t2
  rw [report_wr, Send_wr, a1] at a2
  rw [report_rd, Send_rd, b1] at b2
  rw [report_nw, Send_nw, c1] at c2
  rw [report_nr, Send_nr, d1] at d2
  rw [report_trace, Send_trace, Send_fst, t1, a1, c1] at t2
  rw [hdef]
  refine ⟨?_, ?_, ?_, ?_, Event.println ConsoleMsg.doneReading :: pre,
    post ++ [Event.write [94, 94, 101, 10],
      Event.log (w3.wr w3.nw).n (w3.wr w3.nw).err [94, 94, 101, 10]], ?_, ?_, ?_, ?_, ?_, ?_, ?_⟩
  · rw [Send_wr, a2]
  · rw [Send_rd, b2]
  · rw [Send_nw, c2]; omega
  · rw [Send_nr, d2]
  · rw [Send_trace, t2]; simp
  · simpa [writes] using p1
  · simpa [readCount] using p2
  · simpa [reported] using p3
  · simp [writes_append, writes, q1]
  · simp [readCount_append, readCount, q2]
  · simp [reported_append, reported, q3]

theorem Join_eq_intercalate (sep : GoString) : ∀ (elems : List GoString),
    Join elems sep = List.intercalate sep elems
  | [] => by simp [Join, List.intercalate]
  | [a] => by simp [Join, List.intercalate]
  | a :: b :: rest => by
    have ih := Join_eq_intercalate sep (b :: rest)
    rw [Join, ih]
    simp [List.intercalate, List.intersperse]

/-! ## Control commands -/

/-- C1: each of the five control operations performs exactly one port write,
of the fixed bytes of its row of the table (`^^r\n`, `^^c\n`, `^^s\n`, `^^e\n`,
and `^^p\n` for PrintScript), whatever the state of the connection and whatever
happened before, and its result is the error of that write, unchanged.
PrintScript has returned when the write failed or when its drain has ended. -/
theorem control_commands_one_fixed_write (fuel : Nat) (w : World) :
    ((Reset w).1 = (w.wr w.nw).err ∧ (Reset w).2.nw = w.nw + 1 ∧
      (Reset w).2.trace = w.trace ++
        [Event.write [94, 94, 114, 10],
          Event.log (w.wr w.nw).n (w.wr w.nw).err [94, 94, 114, 10]]) ∧
    ((ClearScript w).1 = (w.wr w.nw).err ∧ (ClearScript w).2.nw = w.nw + 1 ∧
      (ClearScript w).2.trace = w.trace ++
        [Event.write [94, 94, 99, 10],
          Event.log (w.wr w.nw).n (w.wr w.nw).err [94, 94, 99, 10]]) ∧
    ((StartScript w).1 = (w.wr w.nw).err ∧ (StartScript w).2.nw = w.nw + 1 ∧
      (StartScript w).2.trace = w.trace ++
        [Event.write [94, 94, 115, 10],
          Event.log (w.wr w.nw).n (w.wr w.nw).err [94, 94, 115, 10]]) ∧
    ((EndScript w).1 = (w.wr w.nw).err ∧ (EndScript w).2.nw = w.nw + 1 ∧
      (EndScript w).2.trace = w.trace ++
        [Event.write [94, 94, 101, 10],
          Event.log (w.wr w.nw).n (w.wr w.nw).err [94, 94, 101, 10]]) ∧
    ((PrintScript fuel w).1 = (w.wr w.nw).err ∧ (PrintScript fuel w).2.1.nw = w.nw + 1 ∧
      writes (PrintScript fuel w).2.1.trace = writes w.trace ++ [[94, 94, 112, 10]] ∧
      (PrintScript fuel w).2.2 =
        ((w.wr w.nw).err.isSome || (printResponse fuel (Send [94, 94, 112, 10] w).2).2)) := by
  refine ⟨⟨rfl, rfl, ?_⟩, ⟨rfl, rfl, ?_⟩, ⟨rfl, rfl, ?_⟩, ⟨rfl, rfl, ?_⟩, ?_⟩
  · rw [Reset, Send_trace, ascii_reset]
  · rw [ClearScript, Send_trace, ascii_clear]
  · rw [StartScript, Send_trace, ascii_start]
  · rw [EndScript, Send_trace, ascii_end]
  · have hw : writes (Send [94, 94, 112, 10] w).2.trace
        = writes w.trace ++ [[94, 94, 112, 10]] := by
      rw [Send_trace]; simp [writes_append, writes]
    simp only [PrintScript, ascii_print, Send_fst]
    cases h : (w.wr w.nw).err with
    | some e => exact ⟨rfl, rfl, hw, rfl⟩
    | none =>
      refine ⟨rfl, ?_, ?_, by simp⟩
      · exact (drainLoop_frame fuel _ _).2.2.1
      · show writes (drainLoop fuel _ _).1.trace = _
        rw [drainLoop_writes, hw]

/-! ## Script upload -/

/-- C2: for every list of lines the `script` upload writes, in this order, the
Begin marker `^^s\n`, each line followed by a newline, and the End marker
`^^e\n`: `n+2` writes and no other.  No read is made before the End write; the
handler then is one run of the drainer on the world so reached, and the drainer
adds events after those of the writes, none of them a write. -/
theorem upload_writes_in_order_then_one_drain (fuel : Nat) (lines : List GoString)
    (w : World) :
    upload fuel lines w = printResponse fuel (uploadWrites lines w) ∧
    writes (uploadWrites lines w).trace =
      writes w.trace ++
        ([94, 94, 115, 10] :: lines.map (fun l => l ++ [10])) ++ [[94, 94, 101, 10]] ∧
    (uploadWrites lines w).nw = w.nw + lines.length + 2 ∧
    readCount (uploadWrites lines w).trace = readCount w.trace ∧
    (uploadWrites lines w).nr = w.nr ∧
    (∃ rest, (upload fuel lines w).1.trace = (uploadWrites lines w).trace ++ rest ∧
      writes rest = []) ∧
    writes (upload fuel lines w).1.trace =
      writes w.trace ++
        ([94, 94, 115, 10] :: lines.map (fun l => l ++ [10])) ++ [[94, 94, 101, 10]] := by
  obtain ⟨_, _, hnw, hnr, pre, post, ht, p1, p2, _, q1, q2, _⟩ := uploadWrites_spec lines w
  have hw : writes (uploadWrites lines w).trace =
      writes w.trace ++
        ([94, 94, 115, 10] :: lines.map (fun l => l ++ [10])) ++ [[94, 94, 101, 10]] := by
    rw [ht]
    simp [writes_append, writes, writes_errEvents, p1, q1]
  have hr : readCount (uploadWrites lines w).trace = readCount w.trace := by
    rw [ht]
    cases (w.wr w.nw).err <;> simp [readCount_append, readCount, p2, q2]
  refine ⟨rfl, hw, hnw, hr, hnr, ?_, ?_⟩
  · exact (drainLoop_frame fuel _ _).2.2.2
  · show writes (drainLoop fuel _ _).1.trace = _
    rw [drainLoop_writes, hw]

/-! ## Passthrough -/

/-- C5: for every list of raw tokens, the handler of unrecognized input makes
exactly one port write, of the tokens joined with single spaces and followed by
one newline, and then is one run of the drainer. -/
theorem notFound_one_write_then_one_drain (fuel : Nat) (rawArgs : List GoString)
    (w : World) :
    notFound fuel rawArgs w =
      printResponse fuel
        { w with
          nw := w.nw + 1
          trace := w.trace ++
            (Event.write (List.intercalate [32] rawArgs ++ [10]) ::
              Event.log (w.wr w.nw).n (w.wr w.nw).err (List.intercalate [32] rawArgs ++ [10]) ::
              (match (w.wr w.nw).err with | some e => [Event.err e] | none => [])) } ∧
    writes (notFound fuel rawArgs w).1.trace =
      writes w.trace ++ [List.intercalate [32] rawArgs ++ [10]] := by
  have h : notFound fuel rawArgs w =
      printResponse fuel
        { w with
          nw := w.nw + 1
          trace := w.trace ++
            (Event.write (List.intercalate [32] rawArgs ++ [10]) ::
              Event.log (w.wr w.nw).n (w.wr w.nw).err (List.intercalate [32] rawArgs ++ [10]) ::
              (match (w.wr w.nw).err with | some e => [Event.err e] | none => [])) } := by
    simp only [notFound, ascii_space, ascii_newline, Join_eq_intercalate, Send_fst, Send_snd]
    cases (w.wr w.nw).err <;> simp [World.report, World.emit]
  refine ⟨h, ?_⟩
  rw [h]
  show writes (drainLoop fuel _ _).1.trace = _
  rw [drainLoop_writes]
  simp [writes_append, writes, writes_errEvents]

/-! ## The drain loop, one iteration at a time -/

/-- What `buf[:n]` holds after a read: the first bytes the port delivered, as
many as fit into the buffer. -/
theorem take_after_read (data buf : List Byte) :
    (data.take (min data.length buf.length) ++ buf.drop (min data.length buf.length)).take
        (min data.length buf.length) = data.take buf.length := by
  rw [List.take_append_of_le_length (by simp)]
  rw [List.take_take, min_self]
  rcases Nat.le_total data.length buf.length with h | h
  · rw [Nat.min_eq_left h, List.take_of_length_le h, List.take_of_length_le (le_refl _)]
  · rw [Nat.min_eq_right h]

/-- One iteration of the loop of `printResponse`, spelled out on the answer of
the port to the read. -/
theorem drainLoop_succ (fuel : Nat) (buf : List Byte) (w : World) :
    drainLoop (fuel + 1) buf w =
      if (w.rd w.nr).err = some Err.EOF then
        ({ w with
            nr := w.nr + 1
            trace := w.trace ++
              [Event.read (min (w.rd w.nr).data.length buf.length) (w.rd w.nr).err] }, true)
      else if min (w.rd w.nr).data.length buf.length = 0 then
        ({ w with
            nr := w.nr + 1
            trace := w.trace ++
              (Event.read (min (w.rd w.nr).data.length buf.length) (w.rd w.nr).err ::
                (match (w.rd w.nr).err with | some e => [Event.err e] | none => [])) }, true)
      else
        drainLoop fuel
          ((w.rd w.nr).data.take (min (w.rd w.nr).data.length buf.length) ++
            buf.drop (min (w.rd w.nr).data.length buf.length))
          { w with
            nr := w.nr + 1
            trace := w.trace ++
              (Event.read (min (w.rd w.nr).data.length buf.length) (w.rd w.nr).err ::
                (match (w.rd w.nr).err with | some e => [Event.err e] | none => [])) ++
              [Event.printf ((w.rd w.nr).data.take buf.length)] } := by
  rw [drainLoop]
  simp only [Read, take_after_read]
  by_cases h1 : (w.rd w.nr).err = some Err.EOF
  · simp only [h1, if_true]
  · simp only [h1, if_false]
    by_cases h2 : min (w.rd w.nr).data.length buf.length = 0
    · simp only [h2, if_true]
      cases (w.rd w.nr).err <;> simp [World.report, World.emit]
    · simp only [h2, if_false]
      cases (w.rd w.nr).err <;> simp [World.report, World.emit]

/-- Every iteration makes one read. -/
theorem drainLoop_nr_ge (fuel : Nat) : ∀ (buf : List Byte) (w : World),
    w.nr + min fuel 1 ≤ (drainLoop fuel buf w).1.nr := by
  induction fuel with
  | zero => intro buf w; simp [drainLoop]
  | succ fuel ih =>
    intro buf w
    rw [drainLoop_succ]
    split_ifs
    · simp
    · simp
    · refine le_trans ?_ (ih _ _)
      simp

theorem drainLoop_bursts (bursts : List GoString) : ∀ (fuel : Nat) (buf : List Byte) (w : World),
    buf.length = 128 → bursts.length + 1 ≤ fuel → (∀ b ∈ bursts, b ≠ []) →
    (∀ i b, bursts[i]? = some b → w.rd (w.nr + i) = ⟨b, none⟩) →
    w.rd (w.nr + bursts.length) = ⟨[], none⟩ →
    drainLoop fuel buf w =
      ({ w with
          nr := w.nr + bursts.length + 1
          trace := w.trace ++ burstEvents bursts ++ [Event.read 0 none] }, true) := by
  induction bursts with
  | nil =>
    intro fuel buf w _ hf _ _ hend
    obtain ⟨f, rfl⟩ : ∃ f, fuel = f + 1 := ⟨fuel - 1, by simp at hf; omega⟩
    simp only [List.length_nil, Nat.add_zero] at hend
    rw [drainLoop_succ, hend]
    simp [burstEvents]
  | cons b bs ih =>
    intro fuel buf w hb hf hne hrd hend
    obtain ⟨f, rfl⟩ : ∃ f, fuel = f + 1 := ⟨fuel - 1, by simp at hf; omega⟩
    have h0 : w.rd w.nr = ⟨b, none⟩ := by simpa using hrd 0 b (by simp)
    have hbne : b ≠ [] := hne b (List.mem_cons_self _ _)
    have hlen : 0 < b.length := List.length_pos.mpr hbne
    have hn : min b.length buf.length ≠ 0 := by rw [hb]; omega
    rw [drainLoop_succ, h0]
    simp only [hn, if_false, reduceCtorEq]
    rw [ih f]
    · simp only [hb, burstEvents, List.map_cons, List.flatten_cons, List.length_cons]
      simp only [Prod.mk.injEq, World.mk.injEq, and_true, true_and]
      refine ⟨by omega, ?_⟩
      simp
    · simp only [List.length_append, List.length_take, List.length_drop]; omega
    · simp only [List.length_cons] at hf; omega
    · intro c hc; exact hne c (List.mem_cons_of_mem _ hc)
    · intro i c hc
      have := hrd (i + 1) c (by simpa using hc)
      simpa [Nat.add_assoc, Nat.add_comm 1 i] using this
    · simpa [Nat.add_assoc, Nat.add_comm 1 bs.length] using hend

theorem displayed_burstEvents (bursts : List GoString) :
    displayed (burstEvents bursts) = (bursts.map (List.take 128)).flatten := by
  induction bursts with
  | nil => rfl
  | cons b bs ih =>
    simp only [burstEvents, List.map_cons, List.flatten_cons] at ih ⊢
    simp [displayed, ih]

theorem readCount_burstEvents (bursts : List GoString) :
    readCount (burstEvents bursts) = bursts.length := by
  induction bursts with
  | nil => rfl
  | cons b bs ih =>
    simp only [burstEvents, List.map_cons, List.flatten_cons] at ih ⊢
    simp [readCount, ih]

theorem reported_burstEvents (bursts : List GoString) :
    reported (burstEvents bursts) = [] := by
  induction bursts with
  | nil => rfl
  | cons b bs ih =>
    simp only [burstEvents, List.map_cons, List.flatten_cons] at ih ⊢
    simp [reported, ih]

/-! ## Response drainer -/

/-- C3: when the next `k` reads each deliver at least one byte without error
and the read after them delivers none without error, the drainer, given at
least `k+1` iterations, exits its loop; it has displayed the bursts in order,
each being what the read left in the first `n` bytes of the 128-byte buffer, has
made exactly `k+1` reads, and has reported no error. -/
theorem drain_bursts_until_empty_read (fuel : Nat) (w : World) (bursts : List GoString)
    (hfuel : bursts.length + 1 ≤ fuel)
    (hne : ∀ b ∈ bursts, b ≠ [])
    (hrd : ∀ i b, bursts[i]? = some b → w.rd (w.nr + i) = ⟨b, none⟩)
    (hend : w.rd (w.nr + bursts.length) = ⟨[], none⟩) :
    (printResponse fuel w).2 = true ∧
    displayed (printResponse fuel w).1.trace =
      displayed w.trace ++ (bursts.map (List.take 128)).flatten ∧
    (printResponse fuel w).1.nr = w.nr + bursts.length + 1 ∧
    readCount (printResponse fuel w).1.trace = readCount w.trace + bursts.length + 1 ∧
    reported (printResponse fuel w).1.trace = reported w.trace := by
  have h := drainLoop_bursts bursts fuel (List.replicate 128 0) w (by simp) hfuel hne hrd hend
  rw [printResponse, h]
  refine ⟨rfl, ?_, rfl, ?_, ?_⟩
  · simp [displayed_append, displayed_burstEvents, displayed]
  · simp [readCount_append, readCount_burstEvents, readCount, Nat.add_assoc]
  · simp [reported_append, reported_burstEvents, reported]

/-- Witness for C3: a burst `AB` followed by empty reads gives the output `AB`
and two reads. -/
theorem drain_bursts_until_empty_read_witness :
    (printResponse 2 wBurst).2 = true ∧
    displayed (printResponse 2 wBurst).1.trace = [65, 66] ∧
    (printResponse 2 wBurst).1.nr = 2 ∧
    readCount (printResponse 2 wBurst).1.trace = 2 ∧
    reported (printResponse 2 wBurst).1.trace = [] := by
  have h := drain_bursts_until_empty_read 2 wBurst [[65, 66]] (by decide) (by decide)
    (by
      intro i b hb
      cases i with
      | zero =>
        have : b = [65, 66] := by simpa using hb.symm
        subst this
        rfl
      | succ i => simp at hb)
    rfl
  exact ⟨h.1, h.2.1.trans rfl, h.2.2.1.trans rfl, h.2.2.2.1.trans rfl, h.2.2.2.2.trans rfl⟩

/-- C4: when a read of the drainer returns `io.EOF`, the loop exits at once:
that read is the last event, nothing of it is displayed (even if bytes came
with it) and no error is reported.  In particular a drain whose first read
returns `io.EOF` displays nothing, reports nothing and makes one read. -/
theorem drain_stops_at_EOF (fuel : Nat) (buf : List Byte) (w : World)
    (h : (w.rd w.nr).err = some Err.EOF) :
    drainLoop (fuel + 1) buf w =
      ({ w with
          nr := w.nr + 1
          trace := w.trace ++
            [Event.read (min (w.rd w.nr).data.length buf.length) (some Err.EOF)] }, true) ∧
    (printResponse (fuel + 1) w).2 = true ∧
    (printResponse (fuel + 1) w).1.nr = w.nr + 1 ∧
    readCount (printResponse (fuel + 1) w).1.trace = readCount w.trace + 1 ∧
    displayed (printResponse (fuel + 1) w).1.trace = displayed w.trace ∧
    reported (printResponse (fuel + 1) w).1.trace = reported w.trace := by
  have hstep : ∀ b : List Byte, drainLoop (fuel + 1) b w =
      ({ w with
          nr := w.nr + 1
          trace := w.trace ++
            [Event.read (min (w.rd w.nr).data.length b.length) (some Err.EOF)] }, true) := by
    intro b
    rw [drainLoop_succ]
    simp only [h, if_true]
  refine ⟨hstep buf, ?_⟩
  rw [printResponse, hstep]
  refine ⟨rfl, rfl, ?_, ?_, ?_⟩
  · simp [readCount_append, readCount]
  · simp [displayed_append, displayed]
  · simp [reported_append, reported]

/-- Witness for C4: end of stream on the first read, with bytes in the
buffer. -/
theorem drain_stops_at_EOF_witness :
    (wEOF.rd wEOF.nr).err = some Err.EOF ∧
    (printResponse 4 wEOF).2 = true ∧
    (printResponse 4 wEOF).1.nr = 1 ∧
    readCount (printResponse 4 wEOF).1.trace = 1 ∧
    displayed (printResponse 4 wEOF).1.trace = [] ∧
    reported (printResponse 4 wEOF).1.trace = [] :=
  ⟨rfl, (drain_stops_at_EOF 3 [] wEOF rfl).2⟩

/-- C6, as stated, fails: a read that returns an error other than `io.EOF`
and no byte is reported and ends the drain; with four more iterations allowed
no second read is made. -/
theorem drain_stops_on_error_without_bytes :
    (wReadErr.rd wReadErr.nr).err = some (Err.other 5) ∧
    (printResponse 5 wReadErr).2 = true ∧
    (printResponse 5 wReadErr).1.nr = 1 ∧
    (printResponse 5 wReadErr).1.trace =
      [Event.read 0 (some (Err.other 5)), Event.err (Err.other 5)] :=
  ⟨rfl, rfl, rfl, rfl⟩

/-- C6, amended: a read of the drainer that returns an error other than
`io.EOF` is reported to the operator right after the read.  If the read
delivered no byte the loop then exits; if it delivered bytes they are displayed
and the loop goes on, so that another read is made. -/
theorem drain_reports_error_continues_iff_bytes (fuel : Nat) (buf : List Byte) (w : World)
    (e : Err) (he : (w.rd w.nr).err = some e) (hne : e ≠ Err.EOF) :
    (∃ rest, (drainLoop (fuel + 1) buf w).1.trace =
        w.trace ++
          [Event.read (min (w.rd w.nr).data.length buf.length) (some e), Event.err e] ++
          rest) ∧
    (min (w.rd w.nr).data.length buf.length = 0 →
      drainLoop (fuel + 1) buf w =
        ({ w with
            nr := w.nr + 1
            trace := w.trace ++ [Event.read 0 (some e), Event.err e] }, true)) ∧
    (min (w.rd w.nr).data.length buf.length ≠ 0 →
      drainLoop (fuel + 1) buf w =
        drainLoop fuel
          ((w.rd w.nr).data.take (min (w.rd w.nr).data.length buf.length) ++
            buf.drop (min (w.rd w.nr).data.length buf.length))
          { w with
            nr := w.nr + 1
            trace := w.trace ++
              [Event.read (min (w.rd w.nr).data.length buf.length) (some e), Event.err e,
                Event.printf ((w.rd w.nr).data.take buf.length)] } ∧
      w.nr + 2 ≤ (drainLoop (fuel + 2) buf w).1.nr) := by
  have hneq : ¬ (some e = some Err.EOF) := fun h => hne (Option.some.inj h)
  have hzero : min (w.rd w.nr).data.length buf.length = 0 →
      drainLoop (fuel + 1) buf w =
        ({ w with
            nr := w.nr + 1
            trace := w.trace ++ [Event.read 0 (some e), Event.err e] }, true) := by
    intro h0
    rw [drainLoop_succ, he]
    simp only [hneq, if_false, h0, if_true]
  have hstep : ∀ f, min (w.rd w.nr).data.length buf.length ≠ 0 →
      drainLoop (f + 1) buf w =
        drainLoop f
          ((w.rd w.nr).data.take (min (w.rd w.nr).data.length buf.length) ++
            buf.drop (min (w.rd w.nr).data.length buf.length))
          { w with
            nr := w.nr + 1
            trace := w.trace ++
              [Event.read (min (w.rd w.nr).data.length buf.length) (some e), Event.err e,
                Event.printf ((w.rd w.nr).data.take buf.length)] } := by
    intro f h0
    rw [drainLoop_succ, he]
    simp only [hneq, if_false, h0]
    simp
  refine ⟨?_, hzero, fun h0 => ⟨hstep fuel h0, ?_⟩⟩
  · by_cases h0 : min (w.rd w.nr).data.length buf.length = 0
    · rw [hzero h0, h0]
      exact ⟨[], by simp⟩
    · rw [hstep fuel h0]
      obtain ⟨_, _, _, rest, hr, _⟩ := drainLoop_frame fuel
        ((w.rd w.nr).data.take (min (w.rd w.nr).data.length buf.length) ++
          buf.drop (min (w.rd w.nr).data.length buf.length))
        { w with
          nr := w.nr + 1
          trace := w.trace ++
            [Event.read (min (w.rd w.nr).data.length buf.length) (some e), Event.err e,
              Event.printf ((w.rd w.nr).data.take buf.length)] }
      refine ⟨Event.printf ((w.rd w.nr).data.take buf.length) :: rest, ?_⟩
      rw [hr]
      simp
  · rw [hstep (fuel + 1) h0]
    have := drainLoop_nr_ge (fuel + 1)
      ((w.rd w.nr).data.take (min (w.rd w.nr).data.length buf.length) ++
        buf.drop (min (w.rd w.nr).data.length buf.length))
      { w with
        nr := w.nr + 1
        trace := w.trace ++
          [Event.read (min (w.rd w.nr).data.length buf.length) (some e), Event.err e,
            Event.printf ((w.rd w.nr).data.take buf.length)] }
    simp only [Nat.min_eq_right (Nat.succ_le_succ (Nat.zero_le fuel))] at this
    exact this

/-- Witness for the amended C6: a failed read that delivered `AB` is
reported, `AB` is displayed, and a second read follows. -/
theorem drain_reports_error_continues_iff_bytes_witness :
    (wReadErrData.rd wReadErrData.nr).err = some (Err.other 5) ∧
    Err.other 5 ≠ Err.EOF ∧
    wReadErrData.nr + 2 ≤ (drainLoop 3 (List.replicate 128 0) wReadErrData).1.nr ∧
    (printResponse 3 wReadErrData).1.trace =
      [Event.read 2 (some (Err.other 5)), Event.err (Err.other 5), Event.printf [65, 66],
        Event.read 0 none] :=
  ⟨rfl, by decide,
    ((drain_reports_error_continues_iff_bytes 1 (List.replicate 128 0) wReadErrData
      (Err.other 5) rfl (by decide)).2.2 (by decide)).2,
    rfl⟩

/-! ## Write failures in the commands -/

/-- C7 fails on the code: with a port whose first write (the Begin marker)
fails, the upload of the one line `a = 1` is not aborted.  The guard after
`StartScript` calls `c.Err` once and has no `return`, so the line and the End
marker are still written after the failed Begin write. -/
theorem upload_continues_after_failed_begin :
    (wBeginFails.wr wBeginFails.nw).err = some (Err.other 5) ∧
    writes (upload 3 [[97, 32, 61, 32, 49]] wBeginFails).1.trace =
      [[94, 94, 115, 10], [97, 32, 61, 32, 49, 10], [94, 94, 101, 10]] ∧
    reported (upload 3 [[97, 32, 61, 32, 49]] wBeginFails).1.trace = [Err.other 5] ∧
    (uploadWrites [[97, 32, 61, 32, 49]] wBeginFails).trace =
      [Event.println ConsoleMsg.doneReading,
        Event.printLine 0 [97, 32, 61, 32, 49],
        Event.write [94, 94, 115, 10], Event.log 0 (some (Err.other 5)) [94, 94, 115, 10],
        Event.err (Err.other 5),
        Event.write [97, 32, 61, 32, 49, 10], Event.log 6 none [97, 32, 61, 32, 49, 10],
        Event.write [94, 94, 101, 10], Event.log 6 none [94, 94, 101, 10]] :=
  ⟨rfl, rfl, rfl, rfl⟩

/-- C8 fails on the code: on a port where every write fails, `reset` and
`dump` report nothing, and `script` with one line makes three failing writes
and reports only the first; `clear` and the passthrough do report theirs. -/
theorem write_errors_dropped_by_reset_dump_script :
    (∀ i, (wWriteFails.wr i).err = some (Err.other 5)) ∧
    writes (resetCmd wWriteFails).trace = [[94, 94, 114, 10]] ∧
    reported (resetCmd wWriteFails).trace = [] ∧
    writes (dumpCmd 3 wWriteFails).1.trace = [[94, 94, 112, 10]] ∧
    reported (dumpCmd 3 wWriteFails).1.trace = [] ∧
    writes (upload 3 [[97]] wWriteFails).1.trace =
      [[94, 94, 115, 10], [97, 10], [94, 94, 101, 10]] ∧
    reported (upload 3 [[97]] wWriteFails).1.trace = [Err.other 5] ∧
    reported (clearCmd wWriteFails).trace = [Err.other 5] ∧
    reported (notFound 3 [[97]] wWriteFails).1.trace = [Err.other 5] :=
  ⟨fun _ => rfl, rfl, rfl, rfl, rfl, rfl, rfl, rfl, rfl⟩

/-- The handlers of `clear` and of unrecognized input report a failed write. -/
theorem clear_and_notFound_report_failed_write (fuel : Nat) (rawArgs : List GoString)
    (w : World) (e : Err) (h : (w.wr w.nw).err = some e) :
    reported (clearCmd w).trace = reported w.trace ++ [e] ∧
    ∃ rest, (notFound fuel rawArgs w).1.trace =
      w.trace ++
        [Event.write (Join rawArgs [32] ++ [10]),
          Event.log (w.wr w.nw).n (some e) (Join rawArgs [32] ++ [10]), Event.err e] ++ rest := by
  constructor
  · simp only [clearCmd, ClearScript, report_trace, Send_trace, Send_fst, h]
    simp [reported_append, reported]
  · obtain ⟨_, _, _, rest, hr, _⟩ := drainLoop_frame fuel (List.replicate 128 0)
      ((Send (Join rawArgs (ascii " ") ++ ascii "\n") w).2.report
        (Send (Join rawArgs (ascii " ") ++ ascii "\n") w).1)
    refine ⟨rest, ?_⟩
    rw [notFound, printResponse, hr, report_trace, Send_trace, Send_fst, h, ascii_space,
      ascii_newline]
    simp

/-! ## Interactive script capture -/

theorem intercalate_lines (sep : GoString) (t : GoString) : ∀ (L : List GoString),
    List.intercalate sep (L ++ [t]) = (L.map (fun l => l ++ sep)).flatten ++ t
  | [] => by simp [List.intercalate]
  | l :: L => by
    have ih := intercalate_lines sep t L
    cases hL : L ++ [t] with
    | nil => simp at hL
    | cons a rest =>
      rw [hL] at ih
      rw [List.cons_append, hL]
      simp only [List.intercalate, List.intersperse, List.flatten_cons, List.map_cons] at ih ⊢
      rw [ih]
      simp

/-- C9: for lines without newline and a terminator without newline, the
interactive capture of the text made of each line followed by a newline and
then the terminator gives back exactly the lines: the terminator entry is
dropped and nothing else.  Dropping the last entry is in range for every input
text. -/
theorem interactiveLines_drops_terminator (L : List GoString) (t : GoString)
    (hL : ∀ l ∈ L, (10 : Byte) ∉ l) (ht : (10 : Byte) ∉ t) :
    interactiveLines ((L.map (fun l => l ++ [10])).flatten ++ t) = some L ∧
    ∀ input, (interactiveLines input).isSome = true := by
  constructor
  · have hsplit : Split ((L.map (fun l => l ++ [10])).flatten ++ t) 10 = L ++ [t] := by
      rw [← intercalate_lines, Split]
      apply List.splitOn_intercalate
      · intro l hl
        rcases List.mem_append.mp hl with h | h
        · exact hL l h
        · rw [List.mem_singleton.mp h]; exact ht
      · simp
    simp [interactiveLines, hsplit]
  · intro input
    have hne : Split input 10 ≠ [] := List.splitOnP_ne_nil _ _
    have hlen : (Split input 10).length ≠ 0 := fun h => hne (List.length_eq_zero.mp h)
    simp [interactiveLines, hlen]

/-- Witness for C9: the text `x\ny\n;` gives the lines `x` and `y`. -/
theorem interactiveLines_drops_terminator_witness :
    interactiveLines [120, 10, 121, 10, 59] = some [[120], [121]] :=
  (interactiveLines_drops_terminator [[120], [121]] [59] (by decide) (by decide)).1

/-! ## Opening the connection -/

/-- C10 fails on the code: called with no path (`nil` or the empty string)
when the glob matches nothing, `Open` does not return an error: it stops with a
nil dereference, before `serial.OpenPort` is reached. -/
theorem Open_without_path_and_match_faults (c : Crow)
    (openPort : Config → Option Nat × Option Err) :
    Open c none ⟨none, none⟩ openPort = Except.error Fault.nilDereference ∧
    Open c (some []) ⟨none, none⟩ openPort = Except.error Fault.nilDereference :=
  ⟨rfl, rfl⟩

/-- With no path given and at least one match, `Open` configures the first
match. -/
theorem Open_uses_first_match (c : Crow) (m : GoString) (ms : List GoString)
    (openPort : Config → Option Nat × Option Err) :
    Open c none ⟨some (m :: ms), none⟩ openPort =
      Except.ok ({ Config := some ⟨m, 115200, 5⟩, Port := (openPort ⟨m, 115200, 5⟩).1 },
        (openPort ⟨m, 115200, 5⟩).2) ∧
    Open c (some []) ⟨some (m :: ms), none⟩ openPort =
      Except.ok ({ Config := some ⟨m, 115200, 5⟩, Port := (openPort ⟨m, 115200, 5⟩).1 },
        (openPort ⟨m, 115200, 5⟩).2) := by
  constructor <;> simp [Open, DefaultDevice]

/-- With a non-empty path, `Open` uses it whatever the glob would answer. -/
theorem Open_uses_given_path (c : Crow) (b : Byte) (p : GoString) (glob : GlobResult)
    (openPort : Config → Option Nat × Option Err) :
    Open c (some (b :: p)) glob openPort =
      Except.ok ({ Config := some ⟨b :: p, 115200, 5⟩,
                   Port := (openPort ⟨b :: p, 115200, 5⟩).1 },
        (openPort ⟨b :: p, 115200, 5⟩).2) := by
  simp [Open]

/-! ## The `script` handler as a whole, and worked examples -/

/-- With a path argument whose file opens, the handler uploads the scanned
lines; when the file does not open it reports the error and returns. -/
theorem scriptCmd_file (fuel : Nat) (path : GoString) (rest : List GoString)
    (openFile : GoString → Except Err (List GoString)) (multi : GoString) (w : World) :
    scriptCmd fuel (path :: rest) openFile multi w =
      match openFile path with
      | Except.error e =>
        ScriptRun.ran ((w.emit (Event.printArgs (path :: rest))).emit (Event.err e)) true
      | Except.ok lines =>
        ScriptRun.ran (upload fuel lines (w.emit (Event.printArgs (path :: rest)))).1
          (upload fuel lines (w.emit (Event.printArgs (path :: rest)))).2 := by
  simp only [scriptCmd]

/-- Without argument, the handler uploads the lines of the interactive
capture. -/
theorem scriptCmd_interactive (fuel : Nat) (openFile : GoString → Except Err (List GoString))
    (multi : GoString) (lines : List GoString) (w : World)
    (h : interactiveLines multi = some lines) :
    scriptCmd fuel [] openFile multi w =
      ScriptRun.ran
        (upload fuel lines
          ((w.emit (Event.printArgs [])).emit (Event.println ConsoleMsg.enterScript))).1
        (upload fuel lines
          ((w.emit (Event.printArgs [])).emit (Event.println ConsoleMsg.enterScript))).2 := by
  simp only [scriptCmd, h]

/-- The lines `a = 1` and `print(a)` give four writes and then a drain, here
of one burst `AB`. -/
theorem upload_example :
    (upload 4 [ascii "a = 1", ascii "print(a)"] wBurst).2 = true ∧
    (upload 4 [ascii "a = 1", ascii "print(a)"] wBurst).1.trace =
      [Event.println ConsoleMsg.doneReading,
        Event.printLine 0 (ascii "a = 1"), Event.printLine 1 (ascii "print(a)"),
        Event.write (ascii "^^s\n"), Event.log 0 none (ascii "^^s\n"),
        Event.write (ascii "a = 1\n"), Event.log 0 none (ascii "a = 1\n"),
        Event.write (ascii "print(a)\n"), Event.log 0 none (ascii "print(a)\n"),
        Event.write (ascii "^^e\n"), Event.log 0 none (ascii "^^e\n"),
        Event.read 2 none, Event.printf (ascii "AB"), Event.read 0 none] :=
  ⟨rfl, rfl⟩

/-- The unrecognized input `dump foo` is written as `dump foo\n`, then
drained. -/
theorem notFound_example :
    (notFound 4 [ascii "dump", ascii "foo"] wBurst).1.trace =
      [Event.write (ascii "dump foo\n"), Event.log 0 none (ascii "dump foo\n"),
        Event.read 2 none, Event.printf (ascii "AB"), Event.read 0 none] :=
  rfl

end Druid
